import Mathlib

/-!
# Verification of the expense-reimbursement workflow

Shallow embedding of the expense lifecycle engine (`ExpenseService`) and of
the balance-transfer handler (`handleReturnMoney`) of the repository, plus
theorems settling the frozen claims about them.

The remote relational store is modelled as an in-memory record of tables
(lists of rows); every `supabase` read/write of the source becomes a pure
lookup/update on that record.  Monetary amounts (JS numbers holding decimal
currency values) are modelled as rationals.  Each operation returns the final
database state together with an `Except` result, so post-states of failing
runs remain observable.  A thrown `new Error(...)` of the source is modelled
as a constructor of `Err` named after its throw site; interpolated numeric
formatting (`toFixed`) inside messages is elided.  Write failures of the
store that the source explicitly handles are modelled by Boolean
fault-injection parameters.
-/

/-- Expense status, the `status` column of the `expenses` table. -/
inductive Status
  | submitted
  | verified
  | approved
  | rejected
deriving DecidableEq

/-- Roles of the `user_roles` table. -/
inductive Role
  | admin
  | engineer
  | employee
  | cashier
deriving DecidableEq

/-- A row of the `expenses` table (columns not read or written by the
modelled operations - trip dates, destination, category, purpose,
timestamps - are omitted). -/
structure Expense where
  id : String
  user_id : String
  title : String
  total_amount : ℚ
  status : Status
  admin_comment : Option String
  assigned_engineer_id : Option String
deriving DecidableEq

/-- A row of the `profiles` table. -/
structure Profile where
  user_id : String
  name : String
  balance : ℚ
  reporting_engineer_id : Option String
deriving DecidableEq

/-- A row of the `user_roles` table. -/
structure RoleRow where
  user_id : String
  role : Role
deriving DecidableEq

/-- A row of the `audit_logs` table. -/
structure AuditLog where
  expense_id : String
  user_id : String
  action : String
  comment : Option String
deriving DecidableEq

/-- A row of the `money_assignments` table.  `assigned_at` is an abstract
timestamp ordinal. -/
structure MoneyAssignment where
  id : String
  cashier_id : String
  recipient_id : String
  amount : ℚ
  assigned_at : Nat
  is_returned : Bool
deriving DecidableEq

/-- The relational store. -/
structure DB where
  expenses : List Expense
  profiles : List Profile
  user_roles : List RoleRow
  audit_logs : List AuditLog
  money_assignments : List MoneyAssignment
deriving DecidableEq

/-- Errors thrown by the modelled operations, one constructor per throw site
of the source; `Err.message` recovers the message text. -/
inductive Err
  | noEditPermission
  | noSubmitPermission
  | rowNotFound
  | onlySubmittedEditable
  | onlySubmittedResubmit
  | noReportingEngineer
  | notAdminAssign
  | assigneeNotEngineer
  | noReviewPermission
  | alreadyApprovedVerify
  | onlySubmittedVerifiable
  | notAdminApprove
  | alreadyApproved
  | notVerifiedApprove
  | insufficientBalance (name : String)
  | balanceDeductFailed
  | notAdminReject
  | invalidReturnAmount
  | insufficientReturnBalance
  | noTargetUser
  | invalidReturnRole
  | targetWriteFailed
deriving DecidableEq

/-- The message carried by each thrown error.  Texts follow the source;
apostrophes are spelled out and interpolated currency figures are elided. -/
def Err.message : Err → String
  | .noEditPermission => "You do not have permission to edit this expense"
  | .noSubmitPermission => "You do not have permission to submit this expense"
  | .rowNotFound => "row not found"
  | .onlySubmittedEditable =>
      "Only submitted expenses can be edited. Verified or approved expenses cannot be modified."
  | .onlySubmittedResubmit => "Only submitted expenses can be re-submitted"
  | .noReportingEngineer =>
      "No reporting engineer is assigned to your profile. Please contact admin to set your reporting engineer before submitting the expense."
  | .notAdminAssign => "Only administrators can assign expenses to engineers"
  | .assigneeNotEngineer => "Assigned user must have engineer role"
  | .noReviewPermission => "You do not have permission to review this expense"
  | .alreadyApprovedVerify => "This expense is already approved and cannot be updated"
  | .onlySubmittedVerifiable => "Only submitted expenses can be verified"
  | .notAdminApprove => "Only administrators can approve expenses"
  | .alreadyApproved => "This expense is already approved"
  | .notVerifiedApprove => "Expense must be verified by an engineer before admin approval"
  | .insufficientBalance name =>
      "Insufficient balance. Employee " ++ name ++ " does not hold the required amount. Please add balance before approving."
  | .balanceDeductFailed => "Failed to deduct balance. Expense approval reverted."
  | .notAdminReject => "Only administrators can reject expenses"
  | .invalidReturnAmount => "Please enter a valid amount greater than 0"
  | .insufficientReturnBalance => "Insufficient Balance"
  | .noTargetUser => "No target user found in the system. Please contact an administrator."
  | .invalidReturnRole => "Invalid role for returning money or target user not found"
  | .targetWriteFailed => "target balance write failed"

deriving instance DecidableEq for Except

/-- Lookup `select().eq("id", i).single()` on `expenses`. -/
def DB.getExpense (db : DB) (i : String) : Option Expense :=
  db.expenses.find? (fun e => e.id == i)

/-- Lookup `select().eq("user_id", u).single()` on `profiles`. -/
def DB.getProfile (db : DB) (u : String) : Option Profile :=
  db.profiles.find? (fun p => p.user_id == u)

/-- Write `update(...).eq("id", i)` on `expenses`, replacing the matching row. -/
def DB.putExpense (db : DB) (i : String) (upd : Expense) : DB :=
  { db with expenses := db.expenses.map (fun e => if e.id == i then upd else e) }

/-- Write of the balance column, `update(...).eq("user_id", u)` on `profiles`. -/
def DB.setBalance (db : DB) (u : String) (b : ℚ) : DB :=
  { db with profiles :=
      db.profiles.map (fun p => if p.user_id == u then { p with balance := b } else p) }

/-- The blank-caller guard of `hasRole`: the source tests
`!userId || userId.trim() === ""`, which holds exactly when every character
of the id is whitespace (including the empty id). -/
def isBlankId (s : String) : Bool := s.toList.all Char.isWhitespace

/-- Model of `ExpenseService.hasRole`: false for an empty or blank user id, else an
existence check over `user_roles`. -/
def DB.hasRole (db : DB) (userId : String) (r : Role) : Bool :=
  if isBlankId userId then false
  else db.user_roles.any (fun row => row.user_id == userId && row.role == r)

/-- Model of `ExpenseService.canUserEditExpense`: admins always; otherwise the owner
while the expense is still submitted. -/
def DB.canUserEditExpense (db : DB) (expenseId userId : String) : Bool :=
  if db.hasRole userId .admin then true
  else
    match db.getExpense expenseId with
    | none => false
    | some e => e.user_id == userId && e.status == .submitted

/-- Model of `ExpenseService.canEngineerReviewExpense`: the acting engineer must be the
assigned engineer of the expense. -/
def DB.canEngineerReviewExpense (db : DB) (expenseId engineerId : String) : Bool :=
  match db.getExpense expenseId with
  | none => false
  | some e => e.assigned_engineer_id == some engineerId

/-- Model of `ExpenseService.logAction`: append a row to `audit_logs` (fire and
forget; failures are ignored by the source). -/
def DB.logAction (db : DB) (expenseId userId action : String)
    (comment : Option String) : DB :=
  { db with audit_logs := db.audit_logs ++ [⟨expenseId, userId, action, comment⟩] }

/-- Status values admitted by the `UpdateExpenseData` interface:
submitted, verified or approved. -/
inductive PatchStatus
  | submitted
  | verified
  | approved
deriving DecidableEq

/-- Inclusion of patchable statuses into `Status`. -/
def PatchStatus.toStatus : PatchStatus → Status
  | .submitted => .submitted
  | .verified => .verified
  | .approved => .approved

/-- The `UpdateExpenseData` patch.  `none` models an absent key (spread
semantics leave the column unchanged); fields never read by the modelled
rows are omitted. -/
structure UpdateExpenseData where
  title : Option String := none
  status : Option PatchStatus := none
  admin_comment : Option String := none
  assigned_engineer_id : Option String := none
  amount : Option ℚ := none
deriving DecidableEq

/-- The `CreateExpenseData` payload (fields not kept on the modelled
`Expense` row are omitted). -/
structure CreateExpenseData where
  title : String
  amount : ℚ
deriving DecidableEq

/-- Model of `ExpenseService.createExpense`: insert a fresh expense with
`status = submitted` and `total_amount = data.amount`, then audit.
`newId` stands for the store-generated row id. -/
def createExpense (db : DB) (userId newId : String) (data : CreateExpenseData) :
    DB × Except Err Expense :=
  let e : Expense :=
    { id := newId, user_id := userId, title := data.title,
      total_amount := data.amount, status := .submitted,
      admin_comment := none, assigned_engineer_id := none }
  let db1 : DB := { db with expenses := db.expenses ++ [e] }
  let db2 := db1.logAction newId userId "expense_created" (some "Expense created")
  (db2, .ok e)

/-- Model of `ExpenseService.updateExpense`: permission check, then the
only-submitted-unless-status-patch guard, then apply the patch (spread
semantics) and audit. -/
def updateExpense (db : DB) (expenseId userId : String) (data : UpdateExpenseData) :
    DB × Except Err Expense :=
  if !(db.canUserEditExpense expenseId userId) then (db, .error .noEditPermission)
  else
    match db.getExpense expenseId with
    | none => (db, .error .rowNotFound)
    | some currentExpense =>
      if currentExpense.status != .submitted && data.status.isNone then
        (db, .error .onlySubmittedEditable)
      else
        let updated : Expense :=
          { currentExpense with
            title := data.title.getD currentExpense.title
            status := (data.status.map PatchStatus.toStatus).getD currentExpense.status
            admin_comment :=
              match data.admin_comment with
              | some c => some c
              | none => currentExpense.admin_comment
            assigned_engineer_id :=
              match data.assigned_engineer_id with
              | some g => some g
              | none => currentExpense.assigned_engineer_id
            total_amount := data.amount.getD currentExpense.total_amount }
        let db1 := db.putExpense expenseId updated
        let action :=
          match data.status with
          | some .submitted => "status_changed_to_submitted"
          | some .verified => "status_changed_to_verified"
          | some .approved => "status_changed_to_approved"
          | none => "expense_updated"
        let db2 := db1.logAction expenseId userId action data.admin_comment
        (db2, .ok updated)

/-- Model of `ExpenseService.submitExpense`: permission check, only-submitted guard,
look up the caller profile and require a reporting engineer (JS falsy check,
so the empty string also fails), then auto-assign and audit. -/
def submitExpense (db : DB) (expenseId userId : String) : DB × Except Err Expense :=
  if !(db.canUserEditExpense expenseId userId) then (db, .error .noSubmitPermission)
  else
    match db.getExpense expenseId with
    | none => (db, .error .rowNotFound)
    | some expense =>
      if expense.status != .submitted then (db, .error .onlySubmittedResubmit)
      else
        match db.getProfile userId with
        | none => (db, .error .rowNotFound)
        | some profile =>
          match profile.reporting_engineer_id with
          | none => (db, .error .noReportingEngineer)
          | some r =>
            if r == "" then (db, .error .noReportingEngineer)
            else
              let updated :=
                { expense with status := .submitted, assigned_engineer_id := some r }
              let db1 := db.putExpense expenseId updated
              let db2 := db1.logAction expenseId userId "expense_submitted"
                (some ("Expense submitted and auto-assigned to engineer " ++ r))
              (db2, .ok updated)

/-- Model of `ExpenseService.assignToEngineer`: role checks, then force
`status = submitted` and set the assigned engineer (no status
precondition), then audit. -/
def assignToEngineer (db : DB) (expenseId engineerId adminId : String) :
    DB × Except Err Expense :=
  if !(db.hasRole adminId .admin) then (db, .error .notAdminAssign)
  else if !(db.hasRole engineerId .engineer) then (db, .error .assigneeNotEngineer)
  else
    match db.getExpense expenseId with
    | none => (db, .error .rowNotFound)
    | some e =>
      let updated := { e with assigned_engineer_id := some engineerId, status := .submitted }
      let db1 := db.putExpense expenseId updated
      let db2 := db1.logAction expenseId adminId "expense_assigned"
        (some ("Assigned to engineer " ++ engineerId))
      (db2, .ok updated)

/-- Model of `ExpenseService.verifyExpense`: assigned-engineer check, then the
already-approved and only-submitted guards, then transition to verified and
audit. -/
def verifyExpense (db : DB) (expenseId engineerId : String) (comment : Option String) :
    DB × Except Err Expense :=
  if !(db.canEngineerReviewExpense expenseId engineerId) then
    (db, .error .noReviewPermission)
  else
    match db.getExpense expenseId with
    | none => (db, .error .rowNotFound)
    | some current =>
      if current.status == .approved then (db, .error .alreadyApprovedVerify)
      else if current.status != .submitted then (db, .error .onlySubmittedVerifiable)
      else
        let updated := { current with status := .verified }
        let db1 := db.putExpense expenseId updated
        let db2 := db1.logAction expenseId engineerId "expense_verified" comment
        (db2, .ok updated)

/-- Model of `ExpenseService.approveExpense`: admin check, verified-status guards,
insufficient-balance guard, then write `status = approved`, then deduct the
balance.  `balanceWriteFails` injects the failure of the profile balance
write; the source then reverts the expense status to verified (ignoring the
outcome of the revert write) and throws. -/
def approveExpense (db : DB) (expenseId adminId : String) (comment : Option String)
    (balanceWriteFails : Bool) : DB × Except Err Expense :=
  if !(db.hasRole adminId .admin) then (db, .error .notAdminApprove)
  else
    match db.getExpense expenseId with
    | none => (db, .error .rowNotFound)
    | some expense =>
      if expense.status == .approved then (db, .error .alreadyApproved)
      else if expense.status != .verified then (db, .error .notVerifiedApprove)
      else
        match db.getProfile expense.user_id with
        | none => (db, .error .rowNotFound)
        | some profile =>
          let currentBalance := profile.balance
          let expenseAmount := expense.total_amount
          if currentBalance < expenseAmount then
            (db, .error (.insufficientBalance profile.name))
          else
            let approvedExpense : Expense :=
              { expense with
                status := .approved
                admin_comment :=
                  match comment with
                  | some c => some c
                  | none => expense.admin_comment }
            let db1 := db.putExpense expenseId approvedExpense
            if balanceWriteFails then
              let db2 := db1.putExpense expenseId { approvedExpense with status := .verified }
              (db2, .error .balanceDeductFailed)
            else
              let newBalance := currentBalance - expenseAmount
              let db2 := db1.setBalance expense.user_id newBalance
              let db3 := db2.logAction expenseId adminId "expense_approved" comment
              (db3, .ok approvedExpense)

/-- Model of `ExpenseService.rejectExpense`: admin check, then write
`status = rejected` with no status precondition, then audit. -/
def rejectExpense (db : DB) (expenseId adminId : String) (comment : Option String) :
    DB × Except Err Expense :=
  if !(db.hasRole adminId .admin) then (db, .error .notAdminReject)
  else
    match db.getExpense expenseId with
    | none => (db, .error .rowNotFound)
    | some e =>
      let updated :=
        { e with
          status := .rejected
          admin_comment :=
            match comment with
            | some c => some c
            | none => e.admin_comment }
      let db1 := db.putExpense expenseId updated
      let db2 := db1.logAction expenseId adminId "expense_rejected" comment
      (db2, .ok updated)

/-- Model of the ascending order-by-assigned-at of the store query, as an
insertion sort on the timestamp. -/
def sortByDate (l : List MoneyAssignment) : List MoneyAssignment :=
  l.insertionSort (fun a b => a.assigned_at ≤ b.assigned_at)

/-- Modelled from the spec: the `get_original_cashier` database function is
invoked by RPC and its definition is not under `src`; the spec says the
employee/engineer path prefers "the cashier recorded as the original funder
via FIFO lookup over Money Assignment records (oldest unreturned
assignment's cashier)". -/
def get_original_cashier (db : DB) (recipient : String) : Option String :=
  ((sortByDate (db.money_assignments.filter
      (fun a => a.recipient_id == recipient && !a.is_returned))).head?).map
    (fun a => a.cashier_id)

/-- Model of the limit-1 role query on `user_roles`: the first
user holding role `r`. -/
def DB.findAnyUserWithRole (db : DB) (r : Role) : Option String :=
  (db.user_roles.find? (fun row => row.role == r)).map (fun row => row.user_id)

/-- Target resolution of `handleReturnMoney`: employees and engineers return
to the original cashier (falling back to any cashier), cashiers return to
any admin, and an admin caller resolves to no target. -/
def resolveReturnTarget (db : DB) (userId : String) (userRole : Role) : Option String :=
  match userRole with
  | .engineer | .employee =>
    match get_original_cashier db userId with
    | some c => some c
    | none => db.findAnyUserWithRole .cashier
  | .cashier => db.findAnyUserWithRole .admin
  | .admin => none

/-- The unreturned assignments of `userId` funded by `targetUserId`, oldest
first - the result of the `money_assignments` query of `handleReturnMoney`. -/
def matchingAssignments (db : DB) (userId targetUserId : String) : List MoneyAssignment :=
  sortByDate (db.money_assignments.filter
    (fun a => a.recipient_id == userId && a.cashier_id == targetUserId && !a.is_returned))

/-- The ids marked returned by the FIFO loop of `handleReturnMoney`: walk the
date-ordered rows, stop when the remaining amount is exhausted, and shrink
the remaining amount by `min(row.amount, remaining)` per consumed row. -/
def fifoMarkIds : List MoneyAssignment → ℚ → List String
  | [], _ => []
  | a :: rest, remaining =>
    if remaining ≤ 0 then []
    else a.id :: fifoMarkIds rest (remaining - min a.amount remaining)

/-- Write setting the returned flag, applied to every assignment row
whose id is in `ids` (the FIFO marking loop of `handleReturnMoney`). -/
def DB.markAssignmentsReturned (db : DB) (ids : List String) : DB :=
  { db with money_assignments :=
      db.money_assignments.map (fun a =>
        if ids.contains a.id then { a with is_returned := true } else a) }

/-- Model of `handleReturnMoney` of the expenses page.  `userBalance` is the
client-side cached balance the handler validates against and deducts from;
`targetWriteFails` injects the failure of the target-side balance write
(the source then aborts with the error and performs no compensating
write).  Failures of the per-row assignment-marking updates are swallowed by
the source, so they are not modelled as faults. -/
def handleReturnMoney (db : DB) (userId : String) (userRole : Role)
    (userBalance amount : ℚ) (targetWriteFails : Bool) : DB × Except Err Unit :=
  if amount ≤ 0 then (db, .error .invalidReturnAmount)
  else if userBalance < amount then (db, .error .insufficientReturnBalance)
  else
    match resolveReturnTarget db userId userRole with
    | none =>
      (db, .error (if userRole == .admin then .invalidReturnRole else .noTargetUser))
    | some targetUserId =>
      match db.getProfile targetUserId with
      | none => (db, .error .rowNotFound)
      | some targetProfile =>
        let newUserBalance := userBalance - amount
        let db1 := db.setBalance userId newUserBalance
        if targetWriteFails then (db1, .error .targetWriteFailed)
        else
          let newTargetBalance := targetProfile.balance + amount
          let db2 := db1.setBalance targetUserId newTargetBalance
          if userRole == .engineer || userRole == .employee then
            let ids := fifoMarkIds (matchingAssignments db2 userId targetUserId) amount
            (db2.markAssignmentsReturned ids, .ok ())
          else (db2, .ok ())

/-- JS falsiness of an optional string column: absent (`null`) or the
empty string. -/
def strOptFalsy : Option String → Bool
  | none => true
  | some s => s == ""

/-- Row and store constants used to exercise the theorems on concrete
inputs.  Expense rows are `(id, user_id, title, total_amount, status,
admin_comment, assigned_engineer_id)`; profile rows are `(user_id, name,
balance, reporting_engineer_id)`. -/
def eC1 : Expense := ⟨"e1", "u1", "trip", 1500, .verified, none, some "eng1"⟩

/-- Profile of the owner of `eC1`, balance 5000. -/
def pC1 : Profile := ⟨"u1", "U One", 5000, none⟩

/-- Store with a verified expense of 1500, owner balance 5000, admin `adm1`. -/
def dbC1 : DB := ⟨[eC1], [pC1], [⟨"adm1", .admin⟩], [], []⟩

/-- A verified expense of 1500. -/
def eC2 : Expense := ⟨"e1", "u1", "trip", 1500, .verified, none, some "eng1"⟩

/-- Owner profile with balance only 1000. -/
def pC2 : Profile := ⟨"u1", "U One", 1000, none⟩

/-- Store with a verified expense of 1500 but owner balance 1000. -/
def dbC2 : DB := ⟨[eC2], [pC2], [⟨"adm1", .admin⟩], [], []⟩

/-- An already approved expense. -/
def eC3x : Expense := ⟨"e1", "u1", "trip", 1500, .approved, none, some "eng1"⟩

/-- Store with an already approved expense and an admin `adm1`. -/
def dbC3x : DB := ⟨[eC3x], [⟨"u1", "U One", 5000, none⟩], [⟨"adm1", .admin⟩], [], []⟩

/-- A submitted expense assigned to engineer `eng1`. -/
def eC3w : Expense := ⟨"e1", "u1", "trip", 1500, .submitted, none, some "eng1"⟩

/-- Store with a submitted expense assigned to engineer `eng1`. -/
def dbC3w : DB := ⟨[eC3w], [], [], [], []⟩

/-- A submitted expense owned by `emp1`. -/
def eC4 : Expense := ⟨"e1", "emp1", "trip", 800, .submitted, none, none⟩

/-- Profile of `emp1` with balance 100. -/
def pC4 : Profile := ⟨"emp1", "Emp", 100, none⟩

/-- Store with a submitted expense owned by `emp1`, who holds no role at
all (`user_roles` is empty). -/
def dbC4 : DB := ⟨[eC4], [pC4], [], [], []⟩

/-- The status-only patch setting `status = approved`. -/
def patchC4 : UpdateExpenseData := { status := some .approved }

/-- The row `eC4` after the status patch of `patchC4`. -/
def expC4 : Expense := ⟨"e1", "emp1", "trip", 800, .approved, none, none⟩

/-- Employee profile, balance 100. -/
def pC5e : Profile := ⟨"emp1", "Emp", 100, none⟩

/-- Cashier profile, balance 10. -/
def pC5c : Profile := ⟨"cash1", "Cash", 10, none⟩

/-- Store with employee `emp1` (balance 100) and cashier `cash1`
(balance 10), no money assignments. -/
def dbC5 : DB := ⟨[], [pC5e, pC5c], [⟨"cash1", .cashier⟩], [], []⟩

/-- A verified expense of 1500. -/
def eC6 : Expense := ⟨"e1", "u1", "trip", 1500, .verified, none, some "eng1"⟩

/-- Owner profile with balance 5000. -/
def pC6 : Profile := ⟨"u1", "U One", 5000, none⟩

/-- Store mirroring `dbC1` for the balance-write-failure scenario. -/
def dbC6 : DB := ⟨[eC6], [pC6], [⟨"adm1", .admin⟩], [], []⟩

/-- Employee profile, balance 100. -/
def pC7e : Profile := ⟨"emp1", "Emp", 100, none⟩

/-- Cashier profile, balance 10. -/
def pC7c : Profile := ⟨"cash1", "Cash", 10, none⟩

/-- Store for the failed-target-credit scenario. -/
def dbC7x : DB := ⟨[], [pC7e, pC7c], [⟨"cash1", .cashier⟩], [], []⟩

/-- A verified expense of 1500. -/
def eC7w : Expense := ⟨"e1", "u1", "trip", 1500, .verified, none, some "eng1"⟩

/-- Owner profile with balance 5000. -/
def pC7w : Profile := ⟨"u1", "U One", 5000, none⟩

/-- Store for the compensation-policy scenario. -/
def dbC7w : DB := ⟨[eC7w], [pC7w], [⟨"adm1", .admin⟩], [], []⟩

/-- A submitted expense assigned to engineer `eng1`. -/
def eC8 : Expense := ⟨"e1", "u1", "trip", 1500, .submitted, none, some "eng1"⟩

/-- Store with a submitted expense assigned to engineer `eng1`. -/
def dbC8 : DB := ⟨[eC8], [], [], [], []⟩

/-- A submitted expense owned by `emp1`. -/
def eC9 : Expense := ⟨"e1", "emp1", "trip", 800, .submitted, none, none⟩

/-- Profile of `emp1` naming `eng1` as reporting engineer. -/
def pC9 : Profile := ⟨"emp1", "Emp", 100, some "eng1"⟩

/-- Store with a submitted expense owned by `emp1` whose profile names
`eng1` as reporting engineer. -/
def dbC9 : DB := ⟨[eC9], [pC9], [], [], []⟩

/-- Assignment rows `(id, cashier_id, recipient_id, amount, assigned_at,
is_returned)`: 30, 50 and 20 from `cash1` to `emp1`, in that date order. -/
def aC10a : MoneyAssignment := ⟨"a1", "cash1", "emp1", 30, 1, false⟩

/-- Second assignment, amount 50. -/
def aC10b : MoneyAssignment := ⟨"a2", "cash1", "emp1", 50, 2, false⟩

/-- Third assignment, amount 20. -/
def aC10c : MoneyAssignment := ⟨"a3", "cash1", "emp1", 20, 3, false⟩

/-- Employee profile, balance 200. -/
def pC10e : Profile := ⟨"emp1", "Emp", 200, none⟩

/-- Cashier profile. -/
def pC10c : Profile := ⟨"cash1", "Cash", 0, none⟩

/-- Store with three unreturned assignments of 30, 50 and 20 from `cash1`
to `emp1`. -/
def dbC10 : DB :=
  ⟨[], [pC10e, pC10c], [⟨"cash1", .cashier⟩], [], [aC10a, aC10b, aC10c]⟩

theorem find?_map_update {α : Type} (key : α → String) (f : α → α)
    (hf : ∀ a, key (f a) = key a) (k : String) :
    ∀ l : List α,
      (l.map (fun a => if key a == k then f a else a)).find? (fun a => key a == k)
        = (l.find? (fun a => key a == k)).map f
  | [] => rfl
  | a :: l => by
    by_cases h : (key a == k) = true
    · have hpos : (key (f a) == k) = true := by rw [hf]; exact h
      rw [List.map_cons, if_pos h,
        List.find?_cons_of_pos (p := fun x => key x == k) _ hpos,
        List.find?_cons_of_pos (p := fun x => key x == k) _ h]
      rfl
    · rw [List.map_cons, if_neg h,
        List.find?_cons_of_neg (p := fun x => key x == k) _ h,
        List.find?_cons_of_neg (p := fun x => key x == k) _ h]
      exact find?_map_update key f hf k l

theorem find?_map_update_ne {α : Type} (key : α → String) (f : α → α)
    (hf : ∀ a, key (f a) = key a) (k k' : String) (hne : k' ≠ k) :
    ∀ l : List α,
      (l.map (fun a => if key a == k then f a else a)).find? (fun a => key a == k')
        = l.find? (fun a => key a == k')
  | [] => rfl
  | a :: l => by
    by_cases h : (key a == k) = true
    · have hk : key a = k := by simpa using h
      have h' : (key a == k') = false := by
        rw [hk]; exact beq_false_of_ne (fun hkk => hne hkk.symm)
      rw [List.map_cons, if_pos h,
        List.find?_cons_of_neg (p := fun x => key x == k') _ (by simp [hf, h']),
        List.find?_cons_of_neg (p := fun x => key x == k') _ (by simp [h'])]
      exact find?_map_update_ne key f hf k k' hne l
    · by_cases h2 : (key a == k') = true
      · rw [List.map_cons, if_neg h,
          List.find?_cons_of_pos (p := fun x => key x == k') _ h2,
          List.find?_cons_of_pos (p := fun x => key x == k') _ h2]
      · rw [List.map_cons, if_neg h,
          List.find?_cons_of_neg (p := fun x => key x == k') _ (by simp [h2]),
          List.find?_cons_of_neg (p := fun x => key x == k') _ (by simp [h2])]
        exact find?_map_update_ne key f hf k k' hne l

theorem find?_map_set {α : Type} (key : α → String) (upd : α) (i : String)
    (hid : key upd = i) :
    ∀ l : List α, (l.find? (fun a => key a == i)).isSome = true →
      (l.map (fun a => if key a == i then upd else a)).find? (fun a => key a == i) = some upd
  | [], h => by simp [List.find?] at h
  | a :: l, h => by
    by_cases hk : (key a == i) = true
    · rw [List.map_cons, if_pos hk,
        List.find?_cons_of_pos (p := fun x => key x == i) _ (by simp [hid])]
    · rw [List.find?_cons_of_neg (p := fun x => key x == i) _ hk] at h
      rw [List.map_cons, if_neg hk,
        List.find?_cons_of_neg (p := fun x => key x == i) _ hk]
      exact find?_map_set key upd i hid l h

theorem find?_map_set_ne {α : Type} (key : α → String) (upd : α) (i k' : String)
    (hid : key upd = i) (hne : k' ≠ i) :
    ∀ l : List α,
      (l.map (fun a => if key a == i then upd else a)).find? (fun a => key a == k')
        = l.find? (fun a => key a == k')
  | [] => rfl
  | a :: l => by
    by_cases hk : (key a == i) = true
    · have hki : key a = i := by simpa using hk
      have h' : (key a == k') = false := by
        rw [hki]; exact beq_false_of_ne (fun hkk => hne hkk.symm)
      have h'' : (key upd == k') = false := by
        rw [hid]; exact beq_false_of_ne (fun hkk => hne hkk.symm)
      rw [List.map_cons, if_pos hk,
        List.find?_cons_of_neg (p := fun x => key x == k') _ (by simp [h'']),
        List.find?_cons_of_neg (p := fun x => key x == k') _ (by simp [h'])]
      exact find?_map_set_ne key upd i k' hid hne l
    · by_cases h2 : (key a == k') = true
      · rw [List.map_cons, if_neg hk,
          List.find?_cons_of_pos (p := fun x => key x == k') _ h2,
          List.find?_cons_of_pos (p := fun x => key x == k') _ h2]
      · rw [List.map_cons, if_neg hk,
          List.find?_cons_of_neg (p := fun x => key x == k') _ (by simp [h2]),
          List.find?_cons_of_neg (p := fun x => key x == k') _ (by simp [h2])]
        exact find?_map_set_ne key upd i k' hid hne l

theorem getExpense_putExpense (db : DB) (i : String) (upd : Expense)
    (hid : upd.id = i) (h : (db.getExpense i).isSome = true) :
    (db.putExpense i upd).getExpense i = some upd :=
  find?_map_set Expense.id upd i hid db.expenses h

theorem getExpense_putExpense_ne (db : DB) (i k' : String) (upd : Expense)
    (hid : upd.id = i) (hne : k' ≠ i) :
    (db.putExpense i upd).getExpense k' = db.getExpense k' :=
  find?_map_set_ne Expense.id upd i k' hid hne db.expenses

theorem getProfile_setBalance (db : DB) (u : String) (b : ℚ) :
    (db.setBalance u b).getProfile u
      = (db.getProfile u).map (fun p => { p with balance := b }) :=
  find?_map_update Profile.user_id (fun p => { p with balance := b })
    (fun _ => rfl) u db.profiles

theorem getProfile_setBalance_ne (db : DB) (u u' : String) (b : ℚ) (hne : u' ≠ u) :
    (db.setBalance u b).getProfile u' = db.getProfile u' :=
  find?_map_update_ne Profile.user_id (fun p => { p with balance := b })
    (fun _ => rfl) u u' hne db.profiles

theorem getProfile_putExpense (db : DB) (i : String) (upd : Expense) (u : String) :
    (db.putExpense i upd).getProfile u = db.getProfile u := rfl

theorem getExpense_setBalance (db : DB) (u : String) (b : ℚ) (i : String) :
    (db.setBalance u b).getExpense i = db.getExpense i := rfl

theorem getProfile_logAction (db : DB) (i u act : String) (c : Option String) (u' : String) :
    (db.logAction i u act c).getProfile u' = db.getProfile u' := rfl

theorem getExpense_logAction (db : DB) (i u act : String) (c : Option String) (i' : String) :
    (db.logAction i u act c).getExpense i' = db.getExpense i' := rfl

theorem getProfile_markAssignmentsReturned (db : DB) (ids : List String) (u : String) :
    (db.markAssignmentsReturned ids).getProfile u = db.getProfile u := rfl

theorem canUserEditExpense_of_owner (db : DB) (i u : String) (e : Expense)
    (he : db.getExpense i = some e) (hown : e.user_id = u) (hst : e.status = .submitted) :
    db.canUserEditExpense i u = true := by
  unfold DB.canUserEditExpense
  by_cases h : db.hasRole u .admin = true
  · rw [if_pos h]
  · rw [if_neg h, he]
    simp [hown, hst]

theorem mem_fifoMarkIds :
    ∀ (l : List MoneyAssignment) (A : ℚ), (∀ a ∈ l, 0 ≤ a.amount) →
      (l.map (fun a => a.id)).Nodup →
      ∀ j, ∀ hj : j < l.length,
        ((l.get ⟨j, hj⟩).id ∈ fifoMarkIds l A ↔
          ((l.take j).map (fun a => a.amount)).sum < A)
  | [], _, _, _, j, hj => absurd hj (Nat.not_lt_zero j)
  | a :: rest, A, hnn, _, 0, _ => by
    rw [fifoMarkIds]
    by_cases hA : A ≤ 0
    · rw [if_pos hA]
      simp only [List.get, List.take_zero, List.map_nil, List.sum_nil]
      exact iff_of_false (List.not_mem_nil _) (not_lt.mpr hA)
    · rw [if_neg hA]
      simp only [List.get, List.take_zero, List.map_nil, List.sum_nil]
      exact iff_of_true (List.mem_cons_self _ _) (lt_of_not_le hA)
  | a :: rest, A, hnn, hnd, j + 1, hj => by
    have hnn' : ∀ x ∈ rest, 0 ≤ x.amount := fun x hx => hnn x (List.mem_cons_of_mem _ hx)
    rw [List.map_cons] at hnd
    have hndc := List.nodup_cons.mp hnd
    have hj' : j < rest.length := Nat.lt_of_succ_lt_succ hj
    have hmem : (rest.get ⟨j, hj'⟩).id ∈ rest.map (fun a => a.id) :=
      List.mem_map_of_mem _ (rest.get_mem j hj')
    have hane : (rest.get ⟨j, hj'⟩).id ≠ a.id := fun hEq => hndc.1 (hEq ▸ hmem)
    have hsum0 : (0:ℚ) ≤ ((rest.take j).map (fun a => a.amount)).sum := by
      apply List.sum_nonneg
      intro x hx
      obtain ⟨y, hy, rfl⟩ := List.mem_map.mp hx
      exact hnn' y (List.mem_of_mem_take hy)
    have hget : ((a :: rest).get ⟨j + 1, hj⟩) = rest.get ⟨j, hj'⟩ := rfl
    have htake : (((a :: rest).take (j + 1)).map (fun x => x.amount)).sum
        = a.amount + ((rest.take j).map (fun x => x.amount)).sum := by
      rw [List.take_succ_cons, List.map_cons, List.sum_cons]
    rw [fifoMarkIds, hget, htake]
    by_cases hA : A ≤ 0
    · rw [if_pos hA]
      refine iff_of_false (List.not_mem_nil _) (not_lt.mpr ?_)
      have ha0 : (0:ℚ) ≤ a.amount := hnn a (List.mem_cons_self _ _)
      calc A ≤ 0 := hA
        _ ≤ a.amount + ((rest.take j).map (fun x => x.amount)).sum :=
          add_nonneg ha0 hsum0
    · rw [if_neg hA, List.mem_cons]
      have IH := mem_fifoMarkIds rest (A - min a.amount A) hnn' hndc.2 j hj'
      rw [or_iff_right hane, IH]
      rcases le_total a.amount A with h | h
      · rw [min_eq_left h, lt_sub_iff_add_lt']
      · rw [min_eq_right h, sub_self]
        refine iff_of_false (not_lt.mpr hsum0) (not_lt.mpr ?_)
        exact le_trans h (le_add_of_nonneg_right hsum0)

theorem matchingAssignments_sorted (db : DB) (u t : String) :
    List.Sorted (fun a b : MoneyAssignment => a.assigned_at ≤ b.assigned_at)
      (matchingAssignments db u t) := by
  haveI : IsTotal MoneyAssignment (fun a b => a.assigned_at ≤ b.assigned_at) :=
    ⟨fun a b => Nat.le_total a.assigned_at b.assigned_at⟩
  haveI : IsTrans MoneyAssignment (fun a b => a.assigned_at ≤ b.assigned_at) :=
    ⟨fun _ _ _ hab hbc => le_trans hab hbc⟩
  exact List.sorted_insertionSort _ _

/-- C1: for every Approve operation that succeeds (the caller holds the
admin role, the expense is verified, and the owner's balance covers it),
the owner's balance afterwards equals the balance before minus the
expense's `total_amount`, and the stored expense status afterwards is
approved. -/
theorem approve_success_deducts_and_approves
    (db : DB) (i a : String) (c : Option String) (e : Expense) (p : Profile)
    (hadmin : db.hasRole a .admin = true)
    (he : db.getExpense i = some e)
    (hst : e.status = .verified)
    (hp : db.getProfile e.user_id = some p)
    (hsuff : e.total_amount ≤ p.balance) :
    ((approveExpense db i a c false).2).isOk = true
    ∧ ((approveExpense db i a c false).1.getProfile e.user_id).map Profile.balance
        = some (p.balance - e.total_amount)
    ∧ ((approveExpense db i a c false).1.getExpense i).map Expense.status
        = some .approved := by
  have hid : e.id = i := by simpa using List.find?_some he
  have hnlt : ¬(p.balance < e.total_amount) := not_lt.mpr hsuff
  have hb1 : (Status.verified == Status.approved) = false := rfl
  have hb2 : (Status.verified != Status.verified) = false := rfl
  refine ⟨?_, ?_, ?_⟩
  · simp [approveExpense, hadmin, he, hp, hst, hb1, hb2, hnlt, Except.isOk, Except.toBool]
  · simp [approveExpense, hadmin, he, hp, hst, hb1, hb2, hnlt,
      getProfile_logAction, getProfile_setBalance, getProfile_putExpense]
  · simp [approveExpense, hadmin, he, hp, hst, hb1, hb2, hnlt,
      getExpense_logAction, getExpense_setBalance, getExpense_putExpense, hid]

/-- Witness for C1 on `dbC1`: owner balance 5000, expense 1500. -/
theorem approve_success_deducts_and_approves_witness :
    ((approveExpense dbC1 "e1" "adm1" none false).2).isOk = true
    ∧ ((approveExpense dbC1 "e1" "adm1" none false).1.getProfile eC1.user_id).map Profile.balance
        = some (pC1.balance - eC1.total_amount)
    ∧ ((approveExpense dbC1 "e1" "adm1" none false).1.getExpense "e1").map Expense.status
        = some .approved :=
  approve_success_deducts_and_approves dbC1 "e1" "adm1" none eC1 pC1
    (by decide) (by decide) (by decide) (by decide) (by decide)

/-- C2: when the admin approves a verified expense whose owner's balance is
strictly below `total_amount`, the operation throws the insufficient-balance
validation error (whose message begins with the text Insufficient balance)
and the store - hence the expense status and the owner's balance - is
completely unchanged. -/
theorem approve_insufficient_balance_fails
    (db : DB) (i a : String) (c : Option String) (e : Expense) (p : Profile)
    (hadmin : db.hasRole a .admin = true)
    (he : db.getExpense i = some e)
    (hst : e.status = .verified)
    (hp : db.getProfile e.user_id = some p)
    (hlt : p.balance < e.total_amount) :
    approveExpense db i a c false = (db, .error (.insufficientBalance p.name))
    ∧ Err.message (.insufficientBalance p.name)
        = "Insufficient balance. Employee " ++ p.name
            ++ " does not hold the required amount. Please add balance before approving." := by
  have hb1 : (Status.verified == Status.approved) = false := rfl
  have hb2 : (Status.verified != Status.verified) = false := rfl
  refine ⟨?_, rfl⟩
  simp [approveExpense, hadmin, he, hp, hst, hb1, hb2, hlt]

/-- Witness for C2 on `dbC2`: owner balance 1000, expense 1500. -/
theorem approve_insufficient_balance_fails_witness :
    approveExpense dbC2 "e1" "adm1" none false
      = (dbC2, .error (.insufficientBalance pC2.name))
    ∧ Err.message (.insufficientBalance pC2.name)
        = "Insufficient balance. Employee " ++ pC2.name
            ++ " does not hold the required amount. Please add balance before approving." :=
  approve_insufficient_balance_fails dbC2 "e1" "adm1" none eC2 pC2
    (by decide) (by decide) (by decide) (by decide) (by decide)

theorem approve_revert_aux
    (db : DB) (i a : String) (c : Option String) (e : Expense) (p : Profile)
    (hadmin : db.hasRole a .admin = true)
    (he : db.getExpense i = some e)
    (hst : e.status = .verified)
    (hp : db.getProfile e.user_id = some p)
    (hsuff : e.total_amount ≤ p.balance) :
    (approveExpense db i a c true).2 = .error .balanceDeductFailed
    ∧ ((approveExpense db i a c true).1.getExpense i).map Expense.status = some .verified
    ∧ (approveExpense db i a c true).1.getProfile e.user_id = some p := by
  have hid : e.id = i := by simpa using List.find?_some he
  have hnlt : ¬(p.balance < e.total_amount) := not_lt.mpr hsuff
  have hb1 : (Status.verified == Status.approved) = false := rfl
  have hb2 : (Status.verified != Status.verified) = false := rfl
  refine ⟨?_, ?_, ?_⟩
  · simp [approveExpense, hadmin, he, hp, hst, hb1, hb2, hnlt]
  · simp [approveExpense, hadmin, he, hp, hst, hb1, hb2, hnlt,
      getExpense_putExpense, hid]
  · simp [approveExpense, hadmin, he, hp, hst, hb1, hb2, hnlt,
      getProfile_putExpense, hp]

theorem transfer_credit_fail_aux
    (db : DB) (u : String) (r : Role) (ub amt : ℚ) (t : String) (pc : Profile)
    (h0 : 0 < amt) (hle : amt ≤ ub)
    (ht : resolveReturnTarget db u r = some t)
    (hpt : (db.getProfile t).isSome = true)
    (hpc : db.getProfile u = some pc) :
    (handleReturnMoney db u r ub amt true).2 = .error .targetWriteFailed
    ∧ ((handleReturnMoney db u r ub amt true).1.getProfile u).map Profile.balance
        = some (ub - amt)
    ∧ ∀ u', u' ≠ u →
        (handleReturnMoney db u r ub amt true).1.getProfile u' = db.getProfile u' := by
  obtain ⟨pt, hpt'⟩ := Option.isSome_iff_exists.mp hpt
  have hn0 : ¬ amt ≤ 0 := not_le.mpr h0
  have hnlt : ¬ ub < amt := not_lt.mpr hle
  refine ⟨?_, ?_, ?_⟩
  · simp [handleReturnMoney, hn0, hnlt, ht, hpt']
  · simp [handleReturnMoney, hn0, hnlt, ht, hpt', getProfile_setBalance, hpc]
  · intro u' hu'
    simp [handleReturnMoney, hn0, hnlt, ht, hpt',
      getProfile_setBalance_ne db u u' (ub - amt) hu']

/-- C6: when the profile balance write of Approve fails after the expense
status was already set to approved, the engine reverts the expense status
back to verified, leaves the owner's balance untouched, and surfaces the
hard `balanceDeductFailed` error. -/
theorem approve_balance_write_failure_reverts
    (db : DB) (i a : String) (c : Option String) (e : Expense) (p : Profile)
    (hadmin : db.hasRole a .admin = true)
    (he : db.getExpense i = some e)
    (hst : e.status = .verified)
    (hp : db.getProfile e.user_id = some p)
    (hsuff : e.total_amount ≤ p.balance) :
    (approveExpense db i a c true).2 = .error .balanceDeductFailed
    ∧ ((approveExpense db i a c true).1.getExpense i).map Expense.status = some .verified
    ∧ (approveExpense db i a c true).1.getProfile e.user_id = some p :=
  approve_revert_aux db i a c e p hadmin he hst hp hsuff

/-- Witness for C6 on `dbC6`. -/
theorem approve_balance_write_failure_reverts_witness :
    (approveExpense dbC6 "e1" "adm1" none true).2 = .error .balanceDeductFailed
    ∧ ((approveExpense dbC6 "e1" "adm1" none true).1.getExpense "e1").map Expense.status
        = some .verified
    ∧ (approveExpense dbC6 "e1" "adm1" none true).1.getProfile eC6.user_id = some pC6 :=
  approve_balance_write_failure_reverts dbC6 "e1" "adm1" none eC6 pC6
    (by decide) (by decide) (by decide) (by decide) (by decide)

/-- C7 counterexample: in a Transfer whose target-side credit write fails
after the caller's deduction write succeeded, no compensating write restores
the caller's prior balance - the run ends with the caller still deducted
(balance 100 - 40 instead of the prior 100) and every other profile
untouched, refuting the claim that every balance-mutating operation
attempts a compensating write restoring the prior value on downstream
failure. -/
theorem return_money_no_compensation_counterexample :
    (handleReturnMoney dbC7x "emp1" .employee 100 40 true).2 = .error .targetWriteFailed
    ∧ ((handleReturnMoney dbC7x "emp1" .employee 100 40 true).1.getProfile "emp1").map
        Profile.balance = some ((100 : ℚ) - 40)
    ∧ (100 : ℚ) - 40 ≠ 100
    ∧ (dbC7x.getProfile "emp1").map Profile.balance = some (100 : ℚ)
    ∧ (handleReturnMoney dbC7x "emp1" .employee 100 40 true).1.getProfile "cash1"
        = dbC7x.getProfile "cash1" := by
  have h := transfer_credit_fail_aux dbC7x "emp1" .employee 100 40 "cash1" pC7e
    (by decide) (by decide) (by decide) (by decide) (by decide)
  exact ⟨h.1, h.2.1, by norm_num, by decide, h.2.2 "cash1" (by decide)⟩

/-- C7 (amended): Approve follows the read-validate-write-compensate policy
for the balance it mutates - when its balance write fails it performs one
compensating write reverting the expense status and surfaces a hard error -
but Transfer does not: when the target credit write fails after the
caller's deduction write succeeded, the operation surfaces the error
without any compensating write, leaving the caller's balance deducted. -/
theorem balance_mutation_compensation :
    (∀ (db : DB) (i a : String) (c : Option String) (e : Expense) (p : Profile),
      db.hasRole a .admin = true → db.getExpense i = some e → e.status = .verified →
      db.getProfile e.user_id = some p → e.total_amount ≤ p.balance →
      ((approveExpense db i a c true).2 = .error .balanceDeductFailed
        ∧ ((approveExpense db i a c true).1.getExpense i).map Expense.status = some .verified
        ∧ (approveExpense db i a c true).1.getProfile e.user_id = some p))
    ∧ (∀ (db : DB) (u : String) (r : Role) (ub amt : ℚ) (t : String) (pc : Profile),
      0 < amt → amt ≤ ub → resolveReturnTarget db u r = some t →
      (db.getProfile t).isSome = true → db.getProfile u = some pc →
      ((handleReturnMoney db u r ub amt true).2 = .error .targetWriteFailed
        ∧ ((handleReturnMoney db u r ub amt true).1.getProfile u).map Profile.balance
            = some (ub - amt)
        ∧ ∀ u', u' ≠ u →
            (handleReturnMoney db u r ub amt true).1.getProfile u' = db.getProfile u')) :=
  ⟨fun db i a c e p h1 h2 h3 h4 h5 => approve_revert_aux db i a c e p h1 h2 h3 h4 h5,
   fun db u r ub amt t pc h1 h2 h3 h4 h5 =>
     transfer_credit_fail_aux db u r ub amt t pc h1 h2 h3 h4 h5⟩

/-- Witness for the amended C7, exercising the Approve half on `dbC7w`. -/
theorem balance_mutation_compensation_witness :
    (approveExpense dbC7w "e1" "adm1" none true).2 = .error .balanceDeductFailed
    ∧ ((approveExpense dbC7w "e1" "adm1" none true).1.getExpense "e1").map Expense.status
        = some .verified
    ∧ (approveExpense dbC7w "e1" "adm1" none true).1.getProfile eC7w.user_id = some pC7w :=
  balance_mutation_compensation.1 dbC7w "e1" "adm1" none eC7w pC7w
    (by decide) (by decide) (by decide) (by decide) (by decide)

/-- C8: Verify fails with the permission error whenever the acting engineer
is not the assigned engineer of the expense; with a matching engineer it
fails with a state error (the already-approved one when the status is
approved) whenever the status is not submitted, leaving the store
unchanged; and with a matching engineer on a submitted expense it sets the
status to verified. -/
theorem verify_permission_state_success
    (db : DB) (i g : String) (c : Option String) (e : Expense)
    (he : db.getExpense i = some e) :
    (e.assigned_engineer_id ≠ some g →
        verifyExpense db i g c = (db, .error .noReviewPermission))
    ∧ (e.assigned_engineer_id = some g → e.status ≠ .submitted →
        ((verifyExpense db i g c).1 = db
          ∧ ((verifyExpense db i g c).2 = .error .alreadyApprovedVerify
              ∨ (verifyExpense db i g c).2 = .error .onlySubmittedVerifiable)
          ∧ (e.status = .approved →
              (verifyExpense db i g c).2 = .error .alreadyApprovedVerify)))
    ∧ (e.assigned_engineer_id = some g → e.status = .submitted →
        ((verifyExpense db i g c).2 = .ok { e with status := .verified }
          ∧ ((verifyExpense db i g c).1.getExpense i).map Expense.status
              = some .verified)) := by
  have hid : e.id = i := by simpa using List.find?_some he
  refine ⟨?_, ?_, ?_⟩
  · intro hne
    have hcan : db.canEngineerReviewExpense i g = false := by
      simp [DB.canEngineerReviewExpense, he, hne]
    simp [verifyExpense, hcan]
  · intro heq hns
    have hcan : db.canEngineerReviewExpense i g = true := by
      simp [DB.canEngineerReviewExpense, he, heq]
    by_cases hap : e.status = .approved
    · have hb : (e.status == Status.approved) = true := by simp [hap]
      refine ⟨?_, Or.inl ?_, fun _ => ?_⟩ <;> simp [verifyExpense, hcan, he, hb]
    · have hb : (e.status == Status.approved) = false := by simp [hap]
      have hb2 : (e.status != Status.submitted) = true := by simp [hns]
      refine ⟨?_, Or.inr ?_, fun h => absurd h hap⟩ <;>
        simp [verifyExpense, hcan, he, hb, hb2]
  · intro heq hsub
    have hcan : db.canEngineerReviewExpense i g = true := by
      simp [DB.canEngineerReviewExpense, he, heq]
    have hb : (e.status == Status.approved) = false := by rw [hsub]; rfl
    have hb2 : (e.status != Status.submitted) = false := by rw [hsub]; rfl
    constructor
    · simp [verifyExpense, hcan, he, hb, hb2]
    · simp [verifyExpense, hcan, he, hb, hb2, getExpense_logAction, getExpense_putExpense, hid]

/-- Witness for C8 on `dbC8`, exercising the successful verification. -/
theorem verify_permission_state_success_witness :
    (verifyExpense dbC8 "e1" "eng1" none).2 = .ok { eC8 with status := .verified }
    ∧ ((verifyExpense dbC8 "e1" "eng1" none).1.getExpense "e1").map Expense.status
        = some .verified :=
  (verify_permission_state_success dbC8 "e1" "eng1" none eC8 (by decide)).2.2
    (by decide) (by decide)

/-- C9: Submit by the owner of a submitted expense fails with the
no-reporting-engineer validation error exactly when the owner profile's
`reporting_engineer_id` is JS-falsy (absent or empty), leaving the store
unchanged; otherwise it succeeds, sets `assigned_engineer_id` to the
reporting engineer, and the status stays submitted. -/
theorem submit_assigns_reporting_engineer
    (db : DB) (i u : String) (e : Expense) (p : Profile)
    (he : db.getExpense i = some e) (hown : e.user_id = u) (hst : e.status = .submitted)
    (hp : db.getProfile u = some p) :
    (strOptFalsy p.reporting_engineer_id = true →
        submitExpense db i u = (db, .error .noReportingEngineer))
    ∧ (∀ r, p.reporting_engineer_id = some r → r ≠ "" →
        ((submitExpense db i u).2
            = .ok { e with status := .submitted, assigned_engineer_id := some r }
          ∧ ((submitExpense db i u).1.getExpense i).map Expense.assigned_engineer_id
              = some (some r)
          ∧ ((submitExpense db i u).1.getExpense i).map Expense.status
              = some .submitted)) := by
  have hid : e.id = i := by simpa using List.find?_some he
  have hcan : db.canUserEditExpense i u = true :=
    canUserEditExpense_of_owner db i u e he hown hst
  have hb : (e.status != Status.submitted) = false := by rw [hst]; rfl
  constructor
  · intro hfal
    match hre : p.reporting_engineer_id with
    | none => simp [submitExpense, hcan, he, hb, hp, hre]
    | some s =>
      have hs : (s == "") = true := by simpa [strOptFalsy, hre] using hfal
      simp [submitExpense, hcan, he, hb, hp, hre, hs]
  · intro r hre hr
    have hrne : (r == "") = false := beq_eq_false_iff_ne.mpr hr
    refine ⟨?_, ?_, ?_⟩ <;>
      simp [submitExpense, hcan, he, hb, hp, hre, hrne, getExpense_logAction,
        getExpense_putExpense, hid]

/-- Witness for C9 on `dbC9`, exercising the successful auto-assignment. -/
theorem submit_assigns_reporting_engineer_witness :
    (submitExpense dbC9 "e1" "emp1").2
        = .ok { eC9 with status := .submitted, assigned_engineer_id := some "eng1" }
    ∧ ((submitExpense dbC9 "e1" "emp1").1.getExpense "e1").map Expense.assigned_engineer_id
        = some (some "eng1")
    ∧ ((submitExpense dbC9 "e1" "emp1").1.getExpense "e1").map Expense.status
        = some .submitted :=
  (submit_assigns_reporting_engineer dbC9 "e1" "emp1" eC9 pC9
    (by decide) (by decide) (by decide) (by decide)).2 "eng1" (by decide) (by decide)

/-- C3 counterexample: an already approved expense is rejected by an admin -
`rejectExpense` has no status precondition - so its status changes from
approved to rejected, refuting the claim that an approved expense never
changes status again (and with it the claimed transition relation). -/
theorem terminal_status_counterexample :
    (dbC3x.getExpense "e1").map Expense.status = some .approved
    ∧ ((rejectExpense dbC3x "e1" "adm1" none).2).isOk = true
    ∧ ((rejectExpense dbC3x "e1" "adm1" none).1.getExpense "e1").map Expense.status
        = some .rejected := by decide

/-- C3 (amended): per operation, Verify only moves submitted to verified,
Approve only verified to approved (so Approve never applies to a submitted
expense), and Submit keeps a submitted expense submitted; but Reject writes
rejected from any status, AssignToEngineer forces submitted from any
status, Update with a status patch writes any of submitted, verified or
approved from any status (and a status patch is mandatory exactly when the
current status is not submitted), and Create starts at submitted - hence
approved and rejected are not terminal. -/
theorem status_transition_characterization :
    (∀ (db : DB) (i g : String) (c : Option String) (e out : Expense),
      db.getExpense i = some e → (verifyExpense db i g c).2 = .ok out →
      e.status = .submitted ∧ out.status = .verified)
    ∧ (∀ (db : DB) (i a : String) (c : Option String) (b : Bool) (e out : Expense),
      db.getExpense i = some e → (approveExpense db i a c b).2 = .ok out →
      e.status = .verified ∧ out.status = .approved)
    ∧ (∀ (db : DB) (i u : String) (e out : Expense),
      db.getExpense i = some e → (submitExpense db i u).2 = .ok out →
      e.status = .submitted ∧ out.status = .submitted)
    ∧ (∀ (db : DB) (i a : String) (c : Option String) (out : Expense),
      (rejectExpense db i a c).2 = .ok out → out.status = .rejected)
    ∧ (∀ (db : DB) (i g a : String) (out : Expense),
      (assignToEngineer db i g a).2 = .ok out → out.status = .submitted)
    ∧ (∀ (db : DB) (i u : String) (d : UpdateExpenseData) (e out : Expense),
      db.getExpense i = some e → (updateExpense db i u d).2 = .ok out →
      (out.status = (d.status.map PatchStatus.toStatus).getD e.status
        ∧ (e.status ≠ .submitted → d.status.isSome = true)))
    ∧ (∀ (db : DB) (u nid : String) (d : CreateExpenseData) (out : Expense),
      (createExpense db u nid d).2 = .ok out → out.status = .submitted) := by
  refine ⟨?_, ?_, ?_, ?_, ?_, ?_, ?_⟩
  · intro db i g c e out he hok
    by_cases hcan : db.canEngineerReviewExpense i g = true
    case neg => simp [verifyExpense, hcan] at hok
    case pos =>
      cases hs : e.status with
      | submitted =>
        refine ⟨rfl, ?_⟩
        simp [verifyExpense, hcan, he, hs] at hok
        subst hok; rfl
      | verified => simp [verifyExpense, hcan, he, hs] at hok
      | approved => simp [verifyExpense, hcan, he, hs] at hok
      | rejected => simp [verifyExpense, hcan, he, hs] at hok
  · intro db i a c b e out he hok
    by_cases hadmin : db.hasRole a .admin = true
    case neg => simp [approveExpense, hadmin] at hok
    case pos =>
      cases hs : e.status with
      | verified =>
        refine ⟨rfl, ?_⟩
        rcases hp : db.getProfile e.user_id with _ | p
        · simp [approveExpense, hadmin, he, hs, hp] at hok
        · by_cases hlt : p.balance < e.total_amount
          · simp [approveExpense, hadmin, he, hs, hp, hlt] at hok
          · cases b
            · simp [approveExpense, hadmin, he, hs, hp, hlt] at hok
              subst hok; rfl
            · simp [approveExpense, hadmin, he, hs, hp, hlt] at hok
      | submitted => simp [approveExpense, hadmin, he, hs] at hok
      | approved => simp [approveExpense, hadmin, he, hs] at hok
      | rejected => simp [approveExpense, hadmin, he, hs] at hok
  · intro db i u e out he hok
    by_cases hcan : db.canUserEditExpense i u = true
    case neg => simp [submitExpense, hcan] at hok
    case pos =>
      by_cases hs : e.status = .submitted
      case neg =>
        have hb : (e.status != Status.submitted) = true := by simp [hs]
        simp [submitExpense, hcan, he, hb] at hok
      case pos =>
        refine ⟨hs, ?_⟩
        have hb : (e.status != Status.submitted) = false := by simp [hs]
        rcases hp : db.getProfile u with _ | p
        · simp [submitExpense, hcan, he, hb, hp] at hok
        · rcases hre : p.reporting_engineer_id with _ | r
          · simp [submitExpense, hcan, he, hb, hp, hre] at hok
          · by_cases hr : (r == "") = true
            · simp [submitExpense, hcan, he, hb, hp, hre, hr] at hok
            · simp [submitExpense, hcan, he, hb, hp, hre, hr] at hok
              subst hok; rfl
  · intro db i a c out hok
    by_cases hadmin : db.hasRole a .admin = true
    case neg => simp [rejectExpense, hadmin] at hok
    case pos =>
      rcases he : db.getExpense i with _ | e
      · simp [rejectExpense, hadmin, he] at hok
      · simp [rejectExpense, hadmin, he] at hok
        subst hok; rfl
  · intro db i g a out hok
    by_cases h1 : db.hasRole a .admin = true
    case neg => simp [assignToEngineer, h1] at hok
    case pos =>
      by_cases h2 : db.hasRole g .engineer = true
      case neg => simp [assignToEngineer, h1, h2] at hok
      case pos =>
        rcases he : db.getExpense i with _ | e
        · simp [assignToEngineer, h1, h2, he] at hok
        · simp [assignToEngineer, h1, h2, he] at hok
          subst hok; rfl
  · intro db i u d e out he hok
    by_cases hcan : db.canUserEditExpense i u = true
    case neg => simp [updateExpense, hcan] at hok
    case pos =>
      by_cases hcond : (e.status != Status.submitted && d.status.isNone) = true
      · simp [updateExpense, hcan, he, hcond] at hok
      · refine ⟨?_, ?_⟩
        · simp [updateExpense, hcan, he, hcond] at hok
          subst hok
          rcases hd : d.status with _ | v <;> simp [hd]
        · intro hns
          rcases hd : d.status with _ | v
          · exact absurd (by simp [hd, hns]) hcond
          · simp [hd]
  · intro db u nid d out hok
    simp [createExpense] at hok
    subst hok; rfl

/-- Witness for the amended C3, exercising the Verify conjunct on `dbC3w`. -/
theorem status_transition_characterization_witness :
    eC3w.status = Status.submitted
    ∧ ({ eC3w with status := Status.verified } : Expense).status = Status.verified :=
  status_transition_characterization.1 dbC3w "e1" "eng1" none eC3w
    { eC3w with status := Status.verified } (by decide) (by decide)

/-- C4: a caller who owns a submitted expense but holds no role at all can
Update it with a patch whose status field is approved: the permission check
passes, the stored status becomes approved with no role check, and no
balance changes (the profiles table is untouched). -/
theorem owner_status_patch_update_succeeds :
    dbC4.user_roles = []
    ∧ dbC4.canUserEditExpense "e1" "emp1" = true
    ∧ (dbC4.getExpense "e1").map Expense.status = some .submitted
    ∧ (dbC4.getExpense "e1").map Expense.user_id = some "emp1"
    ∧ (updateExpense dbC4 "e1" "emp1" patchC4).2 = .ok expC4
    ∧ expC4.status = .approved
    ∧ ((updateExpense dbC4 "e1" "emp1" patchC4).1.getExpense "e1").map Expense.status
        = some .approved
    ∧ (updateExpense dbC4 "e1" "emp1" patchC4).1.profiles = dbC4.profiles := by decide

/-- C5: a Transfer of a positive amount not exceeding the caller's balance
succeeds and moves exactly that amount - the caller's balance drops by it
and the target's balance rises by it; a Transfer of a non-positive amount,
or of more than the caller's balance, fails and leaves the store (hence
every balance) unchanged. -/
theorem return_money_conservation
    (db : DB) (u : String) (r : Role) (ub amt : ℚ) (t : String) (pc pt : Profile)
    (hpc : db.getProfile u = some pc) (hub : ub = pc.balance)
    (ht : resolveReturnTarget db u r = some t) (hne : t ≠ u)
    (hpt : db.getProfile t = some pt) :
    (0 < amt → amt ≤ ub →
      ((handleReturnMoney db u r ub amt false).2 = .ok ()
        ∧ ((handleReturnMoney db u r ub amt false).1.getProfile u).map Profile.balance
            = some (pc.balance - amt)
        ∧ ((handleReturnMoney db u r ub amt false).1.getProfile t).map Profile.balance
            = some (pt.balance + amt)))
    ∧ (∀ b : Bool, amt ≤ 0 ∨ ub < amt →
        ((handleReturnMoney db u r ub amt b).1 = db
          ∧ ((handleReturnMoney db u r ub amt b).2).isOk = false)) := by
  subst hub
  constructor
  · intro h0 hle
    have hn0 : ¬ amt ≤ 0 := not_le.mpr h0
    have hnlt : ¬ pc.balance < amt := not_lt.mpr hle
    have hune : u ≠ t := fun h => hne h.symm
    refine ⟨?_, ?_, ?_⟩
    · by_cases hrole : (r == Role.engineer || r == Role.employee) = true <;>
        simp [handleReturnMoney, hn0, hnlt, ht, hpt, hrole]
    · by_cases hrole : (r == Role.engineer || r == Role.employee) = true <;>
        simp [handleReturnMoney, hn0, hnlt, ht, hpt, hrole,
          getProfile_markAssignmentsReturned,
          getProfile_setBalance_ne _ t u (pt.balance + amt) hune,
          getProfile_setBalance, hpc]
    · by_cases hrole : (r == Role.engineer || r == Role.employee) = true <;>
        simp [handleReturnMoney, hn0, hnlt, ht, hpt, hrole,
          getProfile_markAssignmentsReturned, getProfile_setBalance,
          getProfile_setBalance_ne _ u t (pc.balance - amt) hne, hpt]
  · intro b hbad
    by_cases hA : amt ≤ 0
    · constructor <;> simp [handleReturnMoney, hA, Except.isOk, Except.toBool]
    · have hlt : pc.balance < amt := hbad.resolve_left hA
      constructor <;> simp [handleReturnMoney, hA, hlt, Except.isOk, Except.toBool]

/-- Witness for C5 on `dbC5`: employee returns 40 of balance 100 to the
cashier. -/
theorem return_money_conservation_witness :
    (handleReturnMoney dbC5 "emp1" .employee 100 40 false).2 = .ok ()
    ∧ ((handleReturnMoney dbC5 "emp1" .employee 100 40 false).1.getProfile "emp1").map
        Profile.balance = some (pC5e.balance - 40)
    ∧ ((handleReturnMoney dbC5 "emp1" .employee 100 40 false).1.getProfile "cash1").map
        Profile.balance = some (pC5c.balance + 40) :=
  (return_money_conservation dbC5 "emp1" .employee 100 40 "cash1" pC5e pC5c
    (by decide) (by decide) (by decide) (by decide) (by decide)).1 (by decide) (by decide)

theorem money_assignments_setBalance (db : DB) (u : String) (b : ℚ) :
    (db.setBalance u b).money_assignments = db.money_assignments := rfl

theorem money_assignments_mark (db : DB) (ids : List String) :
    (db.markAssignmentsReturned ids).money_assignments
      = db.money_assignments.map (fun a =>
          if ids.contains a.id then { a with is_returned := true } else a) := rfl

/-- C10: a successful employee/engineer Transfer of amount `amt` routed to
cashier `t` marks assignment rows in the result of the date-ordered query
(oldest first, and that query result is sorted by `assigned_at`): the final
store marks exactly the FIFO prefix, and a row of the query result is
marked if and only if the cumulative amounts of the rows before it are
still below `amt` - in particular the last consumed row is marked fully
returned (its `is_returned` flag is set outright) even when the remaining
amount only partially offsets it. -/
theorem return_money_fifo_marking
    (db : DB) (u : String) (r : Role) (ub amt : ℚ) (t : String)
    (hr : r = .employee ∨ r = .engineer)
    (h0 : 0 < amt) (hle : amt ≤ ub)
    (ht : resolveReturnTarget db u r = some t)
    (hpt : (db.getProfile t).isSome = true)
    (hnn : ∀ a ∈ matchingAssignments db u t, 0 ≤ a.amount)
    (hnd : ((matchingAssignments db u t).map (fun a => a.id)).Nodup) :
    ((handleReturnMoney db u r ub amt false).1.money_assignments
        = (db.markAssignmentsReturned
            (fifoMarkIds (matchingAssignments db u t) amt)).money_assignments)
    ∧ List.Sorted (fun a b : MoneyAssignment => a.assigned_at ≤ b.assigned_at)
        (matchingAssignments db u t)
    ∧ ∀ j, ∀ hj : j < (matchingAssignments db u t).length,
        (((matchingAssignments db u t).get ⟨j, hj⟩).id
            ∈ fifoMarkIds (matchingAssignments db u t) amt
          ↔ (((matchingAssignments db u t).take j).map (fun a => a.amount)).sum < amt) := by
  obtain ⟨pt, hpt'⟩ := Option.isSome_iff_exists.mp hpt
  have hn0 : ¬ amt ≤ 0 := not_le.mpr h0
  have hnlt : ¬ ub < amt := not_lt.mpr hle
  have hrole : (r == Role.engineer || r == Role.employee) = true := by
    rcases hr with rfl | rfl <;> rfl
  refine ⟨?_, matchingAssignments_sorted db u t, mem_fifoMarkIds _ amt hnn hnd⟩
  have hmatch :
      matchingAssignments ((db.setBalance u (ub - amt)).setBalance t (pt.balance + amt)) u t
        = matchingAssignments db u t := rfl
  simp [handleReturnMoney, hn0, hnlt, ht, hpt', hrole, hmatch,
    money_assignments_mark, money_assignments_setBalance]

/-- Witness for C10 on `dbC10`: returning 60 against assignments of 30, 50
and 20 marks the first two rows (30 + 50 with the second only partially
offset) and leaves the third untouched. -/
theorem return_money_fifo_marking_witness :
    (handleReturnMoney dbC10 "emp1" .employee 200 60 false).1.money_assignments
      = (dbC10.markAssignmentsReturned
          (fifoMarkIds (matchingAssignments dbC10 "emp1" "cash1") 60)).money_assignments :=
  (return_money_fifo_marking dbC10 "emp1" .employee 200 60 "cash1" (Or.inl rfl)
    (by decide) (by decide) (by decide) (by decide) (by decide) (by decide)).1
